import Mathlib

/-!
Shallow embedding of `src/app.py` (whisper-voice2text), the Streamlit
upload-and-transcribe page.  The code under scrutiny is:

* `save_uploaded_file` (app.py lines 61-70): compute a suffix from the
  uploaded name (`f".{uploaded_file.name.split('.')[-1]}"`), open a named
  temporary file with `delete=False`, write the uploaded bytes, return the
  path; on any exception display `"File handling error: {e}"` and return
  `None`.
* the transcription-request branch of `main` (app.py lines 113-140): save
  the upload to a temp path, abort if that returned `None`, call the
  external model's `transcribe` on the path, display `result["text"]`,
  display one line per segment
  (`f"{seg['start']:.1f}s - {seg['end']:.1f}s: {seg['text']}"`), delete the
  temp file; on an exception display `"Transcription failed: {e}"` and
  unlink the temp path if it was bound.

The external pieces (the OS temp-file machinery, whether an I/O call
raises, and the third-party `model.transcribe`) are parameters of an
`Env`; the repository's own control flow is translated line by line.
Side effects are an explicit filesystem map plus an event trace.
Python floats in segments are modelled as rationals.
-/

namespace WhisperApp

/-- An uploaded file as the UI hands it to `main`: its `name` and the bytes
returned by `getvalue()`. -/
structure UploadedFile where
  name : String
  content : List Nat
deriving DecidableEq, Repr

/-- One timestamped segment of the transcription result, as returned by the
external model: `start`, `end`, `text` (app.py line 131 reads exactly these
keys).  Times are modelled as rationals. -/
structure Segment where
  start : ℚ
  «end» : ℚ
  text : String
deriving DecidableEq, Repr

/-- The object returned by `model.transcribe`: the code reads
`result["text"]` (line 126) and `result["segments"]` (line 130). -/
structure TranscribeResult where
  text : String
  segments : List Segment
deriving DecidableEq, Repr

/-- Observable effects of handling one transcription request. -/
inductive Event where
  /-- `tempfile.NamedTemporaryFile(delete=False, suffix=...)` created the
  file at `path` (app.py line 65). -/
  | createTemp (path : String)
  /-- `tmp_file.write(uploaded_file.getvalue())` wrote `content` (line 66). -/
  | writeTemp (path : String) (content : List Nat)
  /-- `model.transcribe(temp_path, fp16=False)` was invoked (line 121). -/
  | transcribeCall (path : String)
  /-- `st.code(result["text"], language="text")` (line 126). -/
  | displayText (text : String)
  /-- one `st.write(...)` line inside the timestamps expander (line 131). -/
  | displaySegmentLine (line : String)
  /-- `st.error(...)` (line 69 or line 137). -/
  | displayError (msg : String)
  /-- `os.unlink(temp_path)` succeeded (line 134 or line 139). -/
  | deleteTemp (path : String)
deriving DecidableEq, Repr

/-- The filesystem fragment the request touches: a path-to-bytes map,
first binding wins. -/
structure FS where
  files : List (String × List Nat)
deriving DecidableEq, Repr

/-- Look up the content stored at `p`. -/
def FS.readFile (fs : FS) (p : String) : Option (List Nat) :=
  (fs.files.find? (fun e => e.1 == p)).map (fun e => e.2)

/-- `NamedTemporaryFile` creates an empty file at `p`. -/
def FS.create (fs : FS) (p : String) : FS :=
  ⟨(p, []) :: fs.files⟩

/-- `tmp_file.write(...)` replaces the content stored at `p`. -/
def FS.write (fs : FS) (p : String) (c : List Nat) : FS :=
  ⟨fs.files.map (fun e => if e.1 == p then (p, c) else e)⟩

/-- `os.unlink(p)` removes `p`. -/
def FS.unlink (fs : FS) (p : String) : FS :=
  ⟨fs.files.filter (fun e => e.1 != p)⟩

/-- Everything outside the repository that one request depends on:
`tempBase` is the fresh name the OS picks for the temporary file (its full
name is `tempBase ++ suffix`); `createFails`/`writeFails` inject an
exception (with message) into `NamedTemporaryFile(...)` resp.
`tmp_file.write(...)`; `transcribe` is the external model, returning a
result or raising an exception with a message. -/
structure Env where
  tempBase : String
  createFails : Option String
  writeFails : Option String
  transcribe : String → Except String TranscribeResult

/-- Python's `s.split(sep)` for a one-character separator, over the
character list: every occurrence of `sep` splits, empty pieces are kept,
and the empty input yields `[[]]` (Python: `"".split('.') == ['']`). -/
def pySplit (sep : Char) : List Char → List (List Char)
  | [] => [[]]
  | c :: cs =>
    match pySplit sep cs with
    | [] => [[]]
    | h :: t => if c = sep then [] :: h :: t else (c :: h) :: t

/-- app.py line 64: `suffix = f".{uploaded_file.name.split('.')[-1]}"` —
a dot followed by the last component of the dot-split of the name. -/
def fileSuffix (name : String) : String :=
  "." ++ String.mk ((pySplit '.' name.data).getLastD [])

/-- app.py lines 61-70, `save_uploaded_file`: compute the suffix, create
the named temporary file (`delete=False`), write the uploaded bytes and
return the path; if the creation or the write raises, display
`"File handling error: {e}"` and return `None` (the created file, if any,
is not removed).  Returns (result, filesystem, emitted events). -/
def save_uploaded_file (env : Env) (uploaded_file : UploadedFile) (fs : FS) :
    Option String × FS × List Event :=
  match env.createFails with
  | some msg => (none, fs, [Event.displayError ("File handling error: " ++ msg)])
  | none =>
    let path := env.tempBase ++ fileSuffix uploaded_file.name
    let fs1 := fs.create path
    match env.writeFails with
    | some msg =>
      (none, fs1,
        [Event.createTemp path, Event.displayError ("File handling error: " ++ msg)])
    | none =>
      (some path, fs1.write path uploaded_file.content,
        [Event.createTemp path, Event.writeTemp path uploaded_file.content])

/-- Render a nonnegative number of tenths the way `:.1f` prints the
corresponding value: integer part, a dot, one digit. -/
def fmt1nat (m : Nat) : String :=
  toString (m / 10) ++ "." ++ toString (m % 10)

/-- Round to the nearest integer, ties to even — the rounding CPython's
`format(x, '.1f')` applies to the scaled value. -/
def roundHalfEven (x : ℚ) : Int :=
  let f := Int.floor x
  if x - f < 1 / 2 then f
  else if (1 : ℚ) / 2 < x - f then f + 1
  else if f % 2 = 0 then f else f + 1

/-- Python `f"{q:.1f}"` on a rational-modelled float. -/
def fmt1 (q : ℚ) : String :=
  let n := roundHalfEven (q * 10)
  if n < 0 then "-" ++ fmt1nat (-n).toNat else fmt1nat n.toNat

/-- app.py line 131: the one displayed line of a segment,
`f"{seg['start']:.1f}s - {seg['end']:.1f}s: {seg['text']}"`. -/
def renderSegment (seg : Segment) : String :=
  fmt1 seg.start ++ "s - " ++ fmt1 seg.«end» ++ "s: " ++ seg.text

/-- app.py lines 113-140, the body under `if st.button("Transcribe Audio")`:
save the upload; if that returned `None`, return (line 117); otherwise call
`model.transcribe(temp_path)`; on success display the text, one line per
segment, and unlink the temp file (lines 121-134); if `transcribe` raises,
the `except` block displays `"Transcription failed: {e}"` and, since
`temp_path` is bound, unlinks it (lines 136-140).  Returns the final
filesystem and the trace of emitted events. -/
def handleRequest (env : Env) (uploaded_file : UploadedFile) (fs : FS) :
    FS × List Event :=
  match save_uploaded_file env uploaded_file fs with
  | (none, fs1, evs) => (fs1, evs)
  | (some temp_path, fs1, evs) =>
    match env.transcribe temp_path with
    | Except.error msg =>
      (fs1.unlink temp_path,
        evs ++ [Event.transcribeCall temp_path,
                Event.displayError ("Transcription failed: " ++ msg),
                Event.deleteTemp temp_path])
    | Except.ok result =>
      (fs1.unlink temp_path,
        evs ++ [Event.transcribeCall temp_path, Event.displayText result.text]
            ++ result.segments.map (fun seg => Event.displaySegmentLine (renderSegment seg))
            ++ [Event.deleteTemp temp_path])

/-- The text an event shows as the transcription result, if any. -/
def textOf : Event → Option String
  | Event.displayText t => some t
  | _ => none

/-- The timestamp line an event shows, if any. -/
def segLineOf : Event → Option String
  | Event.displaySegmentLine l => some l
  | _ => none

/-- Whether an event is an invocation of `model.transcribe`. -/
def isTranscribeCall : Event → Bool
  | Event.transcribeCall _ => true
  | _ => false

/-- Whether an event is the creation of a temporary file. -/
def isCreateTemp : Event → Bool
  | Event.createTemp _ => true
  | _ => false

/-- Whether an event is a write into a temporary file. -/
def isWriteTemp : Event → Bool
  | Event.writeTemp _ _ => true
  | _ => false

/-- The texts shown as the transcription result, in display order. -/
def displayedTexts (evs : List Event) : List String :=
  evs.filterMap textOf

/-- The timestamp lines shown, in display order. -/
def displayedSegmentLines (evs : List Event) : List String :=
  evs.filterMap segLineOf

/-- How many times `model.transcribe` was invoked in a trace. -/
def transcribeCallCount (evs : List Event) : Nat :=
  (evs.filter isTranscribeCall).length

/-- How many temporary files a trace creates. -/
def createTempCount (evs : List Event) : Nat :=
  (evs.filter isCreateTemp).length

/-- How many writes to temporary files a trace performs. -/
def writeTempCount (evs : List Event) : Nat :=
  (evs.filter isWriteTemp).length

/-- Claim C3 as stated: the request's trace is exactly save (create +
write), transcribe, display text, display the segment lines, delete. -/
def followsHappyPath (env : Env) (uf : UploadedFile) (fs : FS) : Prop :=
  ∃ (p : String) (c : List Nat) (t : String) (lines : List String),
    (handleRequest env uf fs).2 =
    [Event.createTemp p, Event.writeTemp p c, Event.transcribeCall p, Event.displayText t]
      ++ lines.map Event.displaySegmentLine ++ [Event.deleteTemp p]

/-- The characters of `name` after its last dot; all of `name` when it has
no dot (the spec-level description of the suffix in C10). -/
def afterLastDot (l : List Char) : List Char :=
  (l.reverse.takeWhile (fun c => c != '.')).reverse

/-! ### Structural lemmas about the embedded code -/

/-- When neither injected failure fires, `save_uploaded_file` returns the
temp path, the filesystem holding the written bytes, and the create/write
events. -/
lemma save_ok (env : Env) (uf : UploadedFile) (fs : FS)
    (h1 : env.createFails = none) (h2 : env.writeFails = none) :
    save_uploaded_file env uf fs =
      (some (env.tempBase ++ fileSuffix uf.name),
       (fs.create (env.tempBase ++ fileSuffix uf.name)).write
         (env.tempBase ++ fileSuffix uf.name) uf.content,
       [Event.createTemp (env.tempBase ++ fileSuffix uf.name),
        Event.writeTemp (env.tempBase ++ fileSuffix uf.name) uf.content]) := by
  unfold save_uploaded_file
  rw [h1, h2]

/-- A successful save pins down the environment and the returned path. -/
lemma save_fst_some (env : Env) (uf : UploadedFile) (fs : FS) (path : String)
    (h : (save_uploaded_file env uf fs).1 = some path) :
    env.createFails = none ∧ env.writeFails = none ∧
      path = env.tempBase ++ fileSuffix uf.name := by
  unfold save_uploaded_file at h
  cases h1 : env.createFails with
  | some msg => rw [h1] at h; simp at h
  | none =>
    rw [h1] at h
    cases h2 : env.writeFails with
    | some msg => simp only [h2] at h; simp at h
    | none =>
      simp only [h2] at h
      simp at h
      exact ⟨rfl, rfl, h.symm⟩

/-- On a successful save followed by a successful transcribe, the whole
request trace and final filesystem, explicitly. -/
lemma handleRequest_ok (env : Env) (uf : UploadedFile) (fs : FS)
    (result : TranscribeResult)
    (h1 : env.createFails = none) (h2 : env.writeFails = none)
    (htr : env.transcribe (env.tempBase ++ fileSuffix uf.name) = Except.ok result) :
    handleRequest env uf fs =
      (((fs.create (env.tempBase ++ fileSuffix uf.name)).write
          (env.tempBase ++ fileSuffix uf.name) uf.content).unlink
        (env.tempBase ++ fileSuffix uf.name),
       [Event.createTemp (env.tempBase ++ fileSuffix uf.name),
        Event.writeTemp (env.tempBase ++ fileSuffix uf.name) uf.content,
        Event.transcribeCall (env.tempBase ++ fileSuffix uf.name),
        Event.displayText result.text]
         ++ result.segments.map (fun seg => Event.displaySegmentLine (renderSegment seg))
         ++ [Event.deleteTemp (env.tempBase ++ fileSuffix uf.name)]) := by
  unfold handleRequest
  rw [save_ok env uf fs h1 h2]
  simp [htr]

/-- On a successful save followed by a raising transcribe, the whole
request trace and final filesystem, explicitly. -/
lemma handleRequest_err (env : Env) (uf : UploadedFile) (fs : FS)
    (msg : String)
    (h1 : env.createFails = none) (h2 : env.writeFails = none)
    (htr : env.transcribe (env.tempBase ++ fileSuffix uf.name) = Except.error msg) :
    handleRequest env uf fs =
      (((fs.create (env.tempBase ++ fileSuffix uf.name)).write
          (env.tempBase ++ fileSuffix uf.name) uf.content).unlink
        (env.tempBase ++ fileSuffix uf.name),
       [Event.createTemp (env.tempBase ++ fileSuffix uf.name),
        Event.writeTemp (env.tempBase ++ fileSuffix uf.name) uf.content,
        Event.transcribeCall (env.tempBase ++ fileSuffix uf.name),
        Event.displayError ("Transcription failed: " ++ msg),
        Event.deleteTemp (env.tempBase ++ fileSuffix uf.name)]) := by
  unfold handleRequest
  rw [save_ok env uf fs h1 h2]
  simp [htr]

/-- When the temp-file creation raises, the request trace is just the
error display and the filesystem is unchanged. -/
lemma handleRequest_createFail (env : Env) (uf : UploadedFile) (fs : FS)
    (msg : String) (h1 : env.createFails = some msg) :
    handleRequest env uf fs =
      (fs, [Event.displayError ("File handling error: " ++ msg)]) := by
  unfold handleRequest save_uploaded_file
  rw [h1]

/-- When the write into the temp file raises, the request trace is the
creation event plus the error display, and the created empty file stays. -/
lemma handleRequest_writeFail (env : Env) (uf : UploadedFile) (fs : FS)
    (msg : String) (h1 : env.createFails = none) (h2 : env.writeFails = some msg) :
    handleRequest env uf fs =
      (fs.create (env.tempBase ++ fileSuffix uf.name),
       [Event.createTemp (env.tempBase ++ fileSuffix uf.name),
        Event.displayError ("File handling error: " ++ msg)]) := by
  unfold handleRequest save_uploaded_file
  rw [h1]
  simp only [h2]

/-- When the temp-file creation raises, `save_uploaded_file` displays the
error and returns `None`, leaving the filesystem unchanged. -/
lemma save_createFail (env : Env) (uf : UploadedFile) (fs : FS)
    (msg : String) (h1 : env.createFails = some msg) :
    save_uploaded_file env uf fs =
      (none, fs, [Event.displayError ("File handling error: " ++ msg)]) := by
  unfold save_uploaded_file
  rw [h1]

/-- When the write raises, `save_uploaded_file` displays the error and
returns `None`, leaving the created empty temp file in the filesystem. -/
lemma save_writeFail (env : Env) (uf : UploadedFile) (fs : FS)
    (msg : String) (h1 : env.createFails = none) (h2 : env.writeFails = some msg) :
    save_uploaded_file env uf fs =
      (none, fs.create (env.tempBase ++ fileSuffix uf.name),
       [Event.createTemp (env.tempBase ++ fileSuffix uf.name),
        Event.displayError ("File handling error: " ++ msg)]) := by
  unfold save_uploaded_file
  rw [h1]
  simp only [h2]

/-- Unlinking a path removes it from the readable filesystem. -/
lemma FS.readFile_unlink (fs : FS) (p : String) :
    (fs.unlink p).readFile p = none := by
  simp only [FS.unlink, FS.readFile]
  rw [List.find?_eq_none.mpr]
  · rfl
  · intro e he
    have := List.of_mem_filter he
    simpa [bne_iff_ne, beq_iff_eq] using this

/-- Reading back the path just created and written yields the written
bytes. -/
lemma FS.readFile_create_write (fs : FS) (p : String) (c : List Nat) :
    ((fs.create p).write p c).readFile p = some c := by
  simp [FS.create, FS.write, FS.readFile, List.find?]

/-- Reading back a just-created path yields the empty file. -/
lemma FS.readFile_create (fs : FS) (p : String) :
    (fs.create p).readFile p = some [] := by
  simp [FS.create, FS.readFile, List.find?]

/-- Rebuilding a string from its characters is the identity. -/
lemma string_mk_data (s : String) : String.mk s.data = s := by
  cases s
  rfl

/-- Segment-line display events carry no transcription-result text. -/
lemma filterMap_textOf_segLines (segs : List Segment) :
    (segs.map (fun seg => Event.displaySegmentLine (renderSegment seg))).filterMap textOf
      = [] := by
  induction segs with
  | nil => rfl
  | cons s ss _ => simp [textOf]

/-- Extracting the displayed lines from the segment-line events recovers
the rendered segments. -/
lemma filterMap_segLineOf_segLines (segs : List Segment) :
    (segs.map (fun seg => Event.displaySegmentLine (renderSegment seg))).filterMap segLineOf
      = segs.map renderSegment := by
  induction segs with
  | nil => rfl
  | cons s ss ih => simpa [segLineOf] using ih

/-- Segment-line display events are not transcribe calls. -/
lemma filter_isTranscribeCall_segLines (segs : List Segment) :
    (segs.map (fun seg => Event.displaySegmentLine (renderSegment seg))).filter
        isTranscribeCall = [] := by
  induction segs with
  | nil => rfl
  | cons s ss _ => simp [isTranscribeCall]

/-- Segment-line display events create no temp files. -/
lemma filter_isCreateTemp_segLines (segs : List Segment) :
    (segs.map (fun seg => Event.displaySegmentLine (renderSegment seg))).filter
        isCreateTemp = [] := by
  induction segs with
  | nil => rfl
  | cons s ss _ => simp [isCreateTemp]

/-- Segment-line display events write no temp files. -/
lemma filter_isWriteTemp_segLines (segs : List Segment) :
    (segs.map (fun seg => Event.displaySegmentLine (renderSegment seg))).filter
        isWriteTemp = [] := by
  induction segs with
  | nil => rfl
  | cons s ss _ => simp [isWriteTemp]

/-! ### Concrete fixtures used by witnesses and counterexamples -/

/-- A run whose external model succeeds. -/
def envOkW : Env :=
  ⟨"/tmp/tmpabc", none, none, fun _ => Except.ok ⟨"hello", [⟨0, 1, " hi"⟩]⟩⟩

/-- A run whose external model raises `"boom"`. -/
def envErrW : Env :=
  ⟨"/tmp/tmp123", none, none, fun _ => Except.error "boom"⟩

/-- A run where `NamedTemporaryFile` itself raises. -/
def envCreateFailW : Env :=
  ⟨"/tmp/tmp9", some "disk full", none, fun _ => Except.error "unused"⟩

/-- A run where the write into the temp file raises. -/
def envWriteFailW : Env :=
  ⟨"/tmp/tmp7", none, some "no space", fun _ => Except.error "unused"⟩

/-- A concrete upload. -/
def ufW : UploadedFile := ⟨"a.wav", [1, 2, 3]⟩

/-- The empty filesystem. -/
def fs0 : FS := ⟨[]⟩

/-! ### `split('.')[-1]` versus "substring after the last dot" -/

/-- Python's split never returns an empty list of pieces. -/
lemma pySplit_ne_nil (sep : Char) (l : List Char) : pySplit sep l ≠ [] := by
  cases l with
  | nil => simp [pySplit]
  | cons c cs =>
    cases hp : pySplit sep cs with
    | nil => simp [pySplit, hp]
    | cons h t =>
      simp only [pySplit, hp]
      split <;> simp

/-- On input free of the separator, Python's split is the singleton of the
whole input. -/
lemma pySplit_of_not_mem (sep : Char) (l : List Char) (h : sep ∉ l) :
    pySplit sep l = [l] := by
  induction l with
  | nil => rfl
  | cons c cs ih =>
    have hc : ¬ c = sep := fun he => h (he ▸ List.mem_cons_self c cs)
    have hcs : sep ∉ cs := fun hm => h (List.mem_cons_of_mem c hm)
    simp [pySplit, ih hcs, hc]

/-- When the separator occurs, Python's split has at least two pieces. -/
lemma two_le_length_pySplit (sep : Char) (l : List Char) (h : sep ∈ l) :
    2 ≤ (pySplit sep l).length := by
  induction l with
  | nil => cases h
  | cons c cs ih =>
    cases hp : pySplit sep cs with
    | nil => exact absurd hp (pySplit_ne_nil sep cs)
    | cons p t =>
      by_cases hc : c = sep
      · simp [pySplit, hp, hc]
      · have hcs : sep ∈ cs := by
          rcases List.mem_cons.mp h with he | hm
          · exact absurd he.symm hc
          · exact hm
        have := ih hcs
        rw [hp] at this
        simp only [pySplit, hp, hc, if_false]
        simpa using this

/-- `getLastD` of a list known nonempty ignores the default. -/
lemma getLastD_irrel {α : Type} (t : List α) (ht : t ≠ []) (a b : α) :
    t.getLastD a = t.getLastD b := by
  cases t with
  | nil => exact absurd rfl ht
  | cons x xs => simp only [List.getLastD_cons]

/-- `takeWhile` passes over a block it accepts entirely. -/
lemma takeWhile_append_all {α : Type} (p : α → Bool) (xs ys : List α)
    (h : ∀ a ∈ xs, p a = true) :
    (xs ++ ys).takeWhile p = xs ++ ys.takeWhile p := by
  induction xs with
  | nil => simp
  | cons x xs ih =>
    have hx : p x = true := h x (List.mem_cons_self x xs)
    simp only [List.cons_append, List.takeWhile_cons, hx, if_true]
    rw [ih (fun a ha => h a (List.mem_cons_of_mem x ha))]

/-- `takeWhile` never reaches past a rejected element. -/
lemma takeWhile_append_stop {α : Type} (p : α → Bool) (xs ys : List α)
    (h : ∃ a ∈ xs, p a = false) :
    (xs ++ ys).takeWhile p = xs.takeWhile p := by
  induction xs with
  | nil =>
    rcases h with ⟨a, ha, _⟩
    cases ha
  | cons x xs ih =>
    by_cases hx : p x = true
    · simp only [List.cons_append, List.takeWhile_cons, hx, if_true]
      rcases h with ⟨a, ha, hpa⟩
      rcases List.mem_cons.mp ha with he | hm
      · rw [he] at hpa; rw [hpa] at hx; cases hx
      · rw [ih ⟨a, hm, hpa⟩]
    · have hx' : p x = false := Bool.eq_false_iff.mpr hx
      simp [List.takeWhile_cons, hx']

/-- `takeWhile` keeps a list it accepts entirely. -/
lemma takeWhile_all {α : Type} (p : α → Bool) (xs : List α)
    (h : ∀ a ∈ xs, p a = true) : xs.takeWhile p = xs := by
  have := takeWhile_append_all p xs [] h
  simpa using this

/-- A dot-free list is its own after-last-dot part. -/
lemma afterLastDot_of_not_mem (l : List Char) (h : '.' ∉ l) :
    afterLastDot l = l := by
  unfold afterLastDot
  rw [takeWhile_all]
  · exact List.reverse_reverse l
  · intro a ha
    have : a ∈ l := List.mem_reverse.mp ha
    have : ¬ a = '.' := fun he => h (he ▸ this)
    simpa [bne_iff_ne] using this

/-- Prepending a dot does not change the after-last-dot part. -/
lemma afterLastDot_dot_cons (cs : List Char) :
    afterLastDot ('.' :: cs) = afterLastDot cs := by
  unfold afterLastDot
  rw [List.reverse_cons]
  by_cases h : '.' ∈ cs
  · rw [takeWhile_append_stop (fun c => c != '.') cs.reverse ['.']
      ⟨'.', List.mem_reverse.mpr h, by simp⟩]
  · have hall : ∀ a ∈ cs.reverse, (fun c => c != '.') a = true := by
      intro a ha
      have ham : a ∈ cs := List.mem_reverse.mp ha
      have : ¬ a = '.' := fun he => h (he ▸ ham)
      simpa [bne_iff_ne] using this
    rw [takeWhile_append_all (fun c => c != '.') cs.reverse ['.'] hall,
      takeWhile_all (fun c => c != '.') cs.reverse hall]
    simp

/-- Prepending anything to a list that contains a dot does not change the
after-last-dot part. -/
lemma afterLastDot_cons_of_mem (c : Char) (cs : List Char) (h : '.' ∈ cs) :
    afterLastDot (c :: cs) = afterLastDot cs := by
  unfold afterLastDot
  rw [List.reverse_cons, takeWhile_append_stop]
  exact ⟨'.', List.mem_reverse.mpr h, by simp⟩

/-- The last piece of Python's dot-split is exactly the characters after
the last dot (the whole input when there is no dot). -/
lemma pySplit_getLastD_eq_afterLastDot (l : List Char) :
    (pySplit '.' l).getLastD [] = afterLastDot l := by
  induction l with
  | nil => rfl
  | cons c cs ih =>
    cases hp : pySplit '.' cs with
    | nil => exact absurd hp (pySplit_ne_nil '.' cs)
    | cons h t =>
      by_cases hc : c = '.'
      · subst hc
        have e1 : pySplit '.' ('.' :: cs) = [] :: h :: t := by
          simp [pySplit, hp]
        rw [e1, List.getLastD_cons, afterLastDot_dot_cons]
        rw [hp] at ih
        exact ih
      · have e1 : pySplit '.' (c :: cs) = (c :: h) :: t := by
          simp [pySplit, hp, hc]
        rw [e1]
        by_cases hm : '.' ∈ cs
        · have h2 := two_le_length_pySplit '.' cs hm
          rw [hp] at h2
          have ht : t ≠ [] := by
            cases t with
            | nil => simp at h2
            | cons y ys => simp
          rw [List.getLastD_cons, getLastD_irrel t ht (c :: h) h,
            afterLastDot_cons_of_mem c cs hm]
          rw [hp, List.getLastD_cons] at ih
          exact ih
        · have hsing := pySplit_of_not_mem '.' cs hm
          rw [hp] at hsing
          injection hsing with hh ht
          have hnm : '.' ∉ c :: cs := by
            intro hmem
            rcases List.mem_cons.mp hmem with he | hm2
            · exact hc he.symm
            · exact hm hm2
          rw [ht, hh, afterLastDot_of_not_mem _ hnm]
          simp

/-! ### The claims -/

/-- C1: for every successful transcription request, the text displayed as
the transcription result is exactly the `text` field of the object the
external model's `transcribe` call returned — displayed once, unmodified
(app.py line 126). -/
theorem C1_displayed_text_is_model_text (env : Env) (uf : UploadedFile) (fs : FS)
    (path : String) (result : TranscribeResult)
    (hsave : (save_uploaded_file env uf fs).1 = some path)
    (htr : env.transcribe path = Except.ok result) :
    displayedTexts (handleRequest env uf fs).2 = [result.text] := by
  obtain ⟨h1, h2, hpath⟩ := save_fst_some env uf fs path hsave
  subst hpath
  rw [handleRequest_ok env uf fs result h1 h2 htr]
  simp [displayedTexts, List.filterMap_append, filterMap_textOf_segLines, textOf]

/-- Witness for C1 on a concrete successful run. -/
theorem C1_displayed_text_is_model_text_witness :
    displayedTexts (handleRequest envOkW ufW fs0).2 = ["hello"] :=
  C1_displayed_text_is_model_text envOkW ufW fs0 "/tmp/tmpabc.wav"
    ⟨"hello", [⟨0, 1, " hi"⟩]⟩ (by decide) rfl

/-- C2: whenever the upload was successfully saved to a temporary path,
that path is deleted by the end of request handling — the trace contains
the deletion and the final filesystem no longer has the file.  The
environment's `transcribe` is arbitrary, so this covers both the success
path (app.py line 134) and the exception path (line 139). -/
theorem C2_temp_file_deleted (env : Env) (uf : UploadedFile) (fs : FS)
    (path : String)
    (hsave : (save_uploaded_file env uf fs).1 = some path) :
    Event.deleteTemp path ∈ (handleRequest env uf fs).2 ∧
      (handleRequest env uf fs).1.readFile path = none := by
  obtain ⟨h1, h2, hpath⟩ := save_fst_some env uf fs path hsave
  subst hpath
  cases htr : env.transcribe (env.tempBase ++ fileSuffix uf.name) with
  | error msg =>
    rw [handleRequest_err env uf fs msg h1 h2 htr]
    exact ⟨by simp, FS.readFile_unlink _ _⟩
  | ok result =>
    rw [handleRequest_ok env uf fs result h1 h2 htr]
    exact ⟨by simp, FS.readFile_unlink _ _⟩

/-- Witness for C2 on a concrete run whose model raises. -/
theorem C2_temp_file_deleted_witness :
    Event.deleteTemp "/tmp/tmp123.wav" ∈ (handleRequest envErrW ufW fs0).2 ∧
      (handleRequest envErrW ufW fs0).1.readFile "/tmp/tmp123.wav" = none :=
  C2_temp_file_deleted envErrW ufW fs0 "/tmp/tmp123.wav" (by decide)

/-- C3 as stated is false: on a request whose `transcribe` call raises,
the trace is not save / transcribe / display text / display segments /
delete — no text is ever displayed. -/
theorem C3_counterexample : ¬ followsHappyPath envErrW ufW fs0 := by
  intro hcl
  obtain ⟨p, c, t, lines, htr⟩ := hcl
  have hact : (handleRequest envErrW ufW fs0).2 =
      [Event.createTemp "/tmp/tmp123.wav",
       Event.writeTemp "/tmp/tmp123.wav" [1, 2, 3],
       Event.transcribeCall "/tmp/tmp123.wav",
       Event.displayError "Transcription failed: boom",
       Event.deleteTemp "/tmp/tmp123.wav"] := by decide
  rw [hact] at htr
  simp [List.cons_append, List.cons.injEq] at htr

/-- C3 amended: for every transcription request in which the save and the
`transcribe` call both succeed, the trace is exactly: save the upload to a
temporary path (create + write), call `transcribe` on that path, display
the returned text, display the returned timestamp segments in order, then
delete the temporary file. -/
theorem C3_steps_in_order (env : Env) (uf : UploadedFile) (fs : FS)
    (path : String) (result : TranscribeResult)
    (hsave : (save_uploaded_file env uf fs).1 = some path)
    (htr : env.transcribe path = Except.ok result) :
    (handleRequest env uf fs).2 =
      [Event.createTemp path, Event.writeTemp path uf.content,
       Event.transcribeCall path, Event.displayText result.text]
        ++ (result.segments.map renderSegment).map Event.displaySegmentLine
        ++ [Event.deleteTemp path] := by
  obtain ⟨h1, h2, hpath⟩ := save_fst_some env uf fs path hsave
  subst hpath
  rw [handleRequest_ok env uf fs result h1 h2 htr]
  simp [List.map_map, Function.comp]

/-- Witness for the amended C3 on a concrete successful run. -/
theorem C3_steps_in_order_witness :
    (handleRequest envOkW ufW fs0).2 =
      [Event.createTemp "/tmp/tmpabc.wav",
       Event.writeTemp "/tmp/tmpabc.wav" [1, 2, 3],
       Event.transcribeCall "/tmp/tmpabc.wav",
       Event.displayText "hello"]
        ++ (([⟨0, 1, " hi"⟩] : List Segment).map renderSegment).map
            Event.displaySegmentLine
        ++ [Event.deleteTemp "/tmp/tmpabc.wav"] :=
  C3_steps_in_order envOkW ufW fs0 "/tmp/tmpabc.wav"
    ⟨"hello", [⟨0, 1, " hi"⟩]⟩ (by decide) rfl

/-- C4: an exception raised by the `transcribe` step is caught and its
message displayed (inside `"Transcription failed: ..."`), with no retry —
`transcribe` is invoked exactly once — and no branching on the exception:
the rest of the trace is the same whatever the message (app.py
lines 136-140). -/
theorem C4_exception_caught_no_retry (env : Env) (uf : UploadedFile) (fs : FS)
    (path : String) (msg : String)
    (hsave : (save_uploaded_file env uf fs).1 = some path)
    (htr : env.transcribe path = Except.error msg) :
    (handleRequest env uf fs).2 =
      [Event.createTemp path, Event.writeTemp path uf.content,
       Event.transcribeCall path,
       Event.displayError ("Transcription failed: " ++ msg),
       Event.deleteTemp path] ∧
      transcribeCallCount (handleRequest env uf fs).2 = 1 := by
  obtain ⟨h1, h2, hpath⟩ := save_fst_some env uf fs path hsave
  subst hpath
  rw [handleRequest_err env uf fs msg h1 h2 htr]
  refine ⟨rfl, ?_⟩
  simp [transcribeCallCount, isTranscribeCall]

/-- Witness for C4 on a concrete run whose model raises `"boom"`. -/
theorem C4_exception_caught_no_retry_witness :
    (handleRequest envErrW ufW fs0).2 =
      [Event.createTemp "/tmp/tmp123.wav",
       Event.writeTemp "/tmp/tmp123.wav" [1, 2, 3],
       Event.transcribeCall "/tmp/tmp123.wav",
       Event.displayError ("Transcription failed: " ++ "boom"),
       Event.deleteTemp "/tmp/tmp123.wav"] ∧
      transcribeCallCount (handleRequest envErrW ufW fs0).2 = 1 :=
  C4_exception_caught_no_retry envErrW ufW fs0 "/tmp/tmp123.wav" "boom"
    (by decide) rfl

/-- C5: on a successful request, the displayed timestamp lines are exactly
one rendered line per returned segment — `start`, `end` and `text` in the
app.py line 131 format — in the order of the returned list. -/
theorem C5_segment_lines_in_order (env : Env) (uf : UploadedFile) (fs : FS)
    (path : String) (result : TranscribeResult)
    (hsave : (save_uploaded_file env uf fs).1 = some path)
    (htr : env.transcribe path = Except.ok result) :
    displayedSegmentLines (handleRequest env uf fs).2 =
      result.segments.map renderSegment := by
  obtain ⟨h1, h2, hpath⟩ := save_fst_some env uf fs path hsave
  subst hpath
  rw [handleRequest_ok env uf fs result h1 h2 htr]
  simp only [displayedSegmentLines, List.filterMap_append,
    filterMap_segLineOf_segLines]
  simp [segLineOf]

/-- Witness for C5 on a concrete successful run. -/
theorem C5_segment_lines_in_order_witness :
    displayedSegmentLines (handleRequest envOkW ufW fs0).2 =
      ([⟨0, 1, " hi"⟩] : List Segment).map renderSegment :=
  C5_segment_lines_in_order envOkW ufW fs0 "/tmp/tmpabc.wav"
    ⟨"hello", [⟨0, 1, " hi"⟩]⟩ (by decide) rfl

/-- C6 as stated is false: on a request where `NamedTemporaryFile` itself
raises, no temporary file is created at all, so "exactly one" fails. -/
theorem C6_counterexample :
    createTempCount (handleRequest envCreateFailW ufW fs0).2 ≠ 1 := by
  decide

/-- C6 amended: every transcription request creates at most one temporary
file and writes into a temporary file at most once, and it creates exactly
one whenever the temporary-file creation succeeds; no other code path
creates an additional one. -/
theorem C6_at_most_one_temp_file (env : Env) (uf : UploadedFile) (fs : FS) :
    createTempCount (handleRequest env uf fs).2 ≤ 1 ∧
      writeTempCount (handleRequest env uf fs).2 ≤ 1 ∧
      (env.createFails = none → createTempCount (handleRequest env uf fs).2 = 1) := by
  cases h1 : env.createFails with
  | some msg =>
    rw [handleRequest_createFail env uf fs msg h1]
    refine ⟨by simp [createTempCount, isCreateTemp],
      by simp [writeTempCount, isWriteTemp], fun hc => ?_⟩
    exact absurd hc (by simp)
  | none =>
    cases h2 : env.writeFails with
    | some msg =>
      rw [handleRequest_writeFail env uf fs msg h1 h2]
      exact ⟨by simp [createTempCount, isCreateTemp, isWriteTemp],
        by simp [writeTempCount, isCreateTemp, isWriteTemp],
        fun _ => by simp [createTempCount, isCreateTemp, isWriteTemp]⟩
    | none =>
      cases htr : env.transcribe (env.tempBase ++ fileSuffix uf.name) with
      | error msg =>
        rw [handleRequest_err env uf fs msg h1 h2 htr]
        exact ⟨by simp [createTempCount, isCreateTemp, isWriteTemp],
          by simp [writeTempCount, isCreateTemp, isWriteTemp],
          fun _ => by simp [createTempCount, isCreateTemp, isWriteTemp]⟩
      | ok result =>
        rw [handleRequest_ok env uf fs result h1 h2 htr]
        refine ⟨?_, ?_, fun _ => ?_⟩
        · simp only [createTempCount, List.filter_append,
            filter_isCreateTemp_segLines]
          simp [isCreateTemp]
        · simp only [writeTempCount, List.filter_append,
            filter_isWriteTemp_segLines]
          simp [isWriteTemp]
        · simp only [createTempCount, List.filter_append,
            filter_isCreateTemp_segLines]
          simp [isCreateTemp]

/-- Witness for the amended C6 on a concrete run. -/
theorem C6_at_most_one_temp_file_witness :
    createTempCount (handleRequest envErrW ufW fs0).2 = 1 :=
  (C6_at_most_one_temp_file envErrW ufW fs0).2.2 rfl

/-- C7: when `save_uploaded_file` returns a path, the bytes stored at that
path are exactly the uploaded file's bytes (app.py line 66 writes
`uploaded_file.getvalue()`). -/
theorem C7_saved_bytes_match (env : Env) (uf : UploadedFile) (fs : FS)
    (path : String)
    (hsave : (save_uploaded_file env uf fs).1 = some path) :
    (save_uploaded_file env uf fs).2.1.readFile path = some uf.content := by
  obtain ⟨h1, h2, hpath⟩ := save_fst_some env uf fs path hsave
  subst hpath
  rw [save_ok env uf fs h1 h2]
  exact FS.readFile_create_write fs _ uf.content

/-- Witness for C7 on a concrete run. -/
theorem C7_saved_bytes_match_witness :
    (save_uploaded_file envOkW ufW fs0).2.1.readFile "/tmp/tmpabc.wav" =
      some [1, 2, 3] :=
  C7_saved_bytes_match envOkW ufW fs0 "/tmp/tmpabc.wav" (by decide)

/-- C8: `save_uploaded_file` is total (in the embedding it returns a value
on every input, never propagating an exception); when it returns `None` it
has displayed a `"File handling error: ..."` message, and the caller then
aborts the request without ever invoking the model's `transcribe`
(app.py lines 68-70 and 116-117). -/
theorem C8_save_none_aborts (env : Env) (uf : UploadedFile) (fs : FS)
    (hnone : (save_uploaded_file env uf fs).1 = none) :
    (∃ msg, Event.displayError ("File handling error: " ++ msg)
        ∈ (save_uploaded_file env uf fs).2.2) ∧
      ∀ p, Event.transcribeCall p ∉ (handleRequest env uf fs).2 := by
  cases h1 : env.createFails with
  | some msg =>
    refine ⟨⟨msg, ?_⟩, fun p => ?_⟩
    · rw [save_createFail env uf fs msg h1]
      simp
    · rw [handleRequest_createFail env uf fs msg h1]
      simp
  | none =>
    cases h2 : env.writeFails with
    | some msg =>
      refine ⟨⟨msg, ?_⟩, fun p => ?_⟩
      · rw [save_writeFail env uf fs msg h1 h2]
        simp
      · rw [handleRequest_writeFail env uf fs msg h1 h2]
        simp
    | none =>
      rw [save_ok env uf fs h1 h2] at hnone
      cases hnone

/-- Witness for C8 on a concrete run whose temp-file creation raises. -/
theorem C8_save_none_aborts_witness :
    (∃ msg, Event.displayError ("File handling error: " ++ msg)
        ∈ (save_uploaded_file envCreateFailW ufW fs0).2.2) ∧
      ∀ p, Event.transcribeCall p ∉ (handleRequest envCreateFailW ufW fs0).2 :=
  C8_save_none_aborts envCreateFailW ufW fs0 (by decide)

/-- C9: when the temp file is created but the write into it raises,
`save_uploaded_file` returns `None` and the created file is never cleaned
up: it is still on disk when the request finishes, and no deletion event
ever occurs (`delete=False` on app.py line 65, no cleanup in lines 68-70,
and `main` returns on line 117). -/
theorem C9_write_failure_leaks_temp (env : Env) (uf : UploadedFile) (fs : FS)
    (msg : String)
    (h1 : env.createFails = none) (h2 : env.writeFails = some msg) :
    (save_uploaded_file env uf fs).1 = none ∧
      (handleRequest env uf fs).1.readFile (env.tempBase ++ fileSuffix uf.name) =
        some [] ∧
      ∀ p, Event.deleteTemp p ∉ (handleRequest env uf fs).2 := by
  refine ⟨?_, ?_, fun p => ?_⟩
  · rw [save_writeFail env uf fs msg h1 h2]
  · rw [handleRequest_writeFail env uf fs msg h1 h2]
    exact FS.readFile_create fs _
  · rw [handleRequest_writeFail env uf fs msg h1 h2]
    simp

/-- Witness for C9 on a concrete run whose write raises. -/
theorem C9_write_failure_leaks_temp_witness :
    (save_uploaded_file envWriteFailW ufW fs0).1 = none ∧
      (handleRequest envWriteFailW ufW fs0).1.readFile
          (envWriteFailW.tempBase ++ fileSuffix ufW.name) = some [] ∧
      ∀ p, Event.deleteTemp p ∉ (handleRequest envWriteFailW ufW fs0).2 :=
  C9_write_failure_leaks_temp envWriteFailW ufW fs0 "no space" rfl rfl

/-- C10: the returned temporary path ends with a suffix that is a dot
followed by the part of the uploaded name after its last dot, and when the
uploaded name has no dot, with a dot followed by the entire name —
`split('.')[-1]` (app.py line 64) agrees with the after-last-dot reading. -/
theorem C10_suffix_is_after_last_dot (env : Env) (uf : UploadedFile) (fs : FS)
    (path : String)
    (hsave : (save_uploaded_file env uf fs).1 = some path) :
    (∃ pre, path = pre ++ ("." ++ String.mk (afterLastDot uf.name.data))) ∧
      ('.' ∉ uf.name.data → ∃ pre, path = pre ++ ("." ++ uf.name)) := by
  obtain ⟨h1, h2, hpath⟩ := save_fst_some env uf fs path hsave
  subst hpath
  constructor
  · refine ⟨env.tempBase, ?_⟩
    simp only [fileSuffix, pySplit_getLastD_eq_afterLastDot]
  · intro hnd
    refine ⟨env.tempBase, ?_⟩
    simp only [fileSuffix, pySplit_getLastD_eq_afterLastDot,
      afterLastDot_of_not_mem uf.name.data hnd, string_mk_data]

/-- Witness for C10 on a concrete run with uploaded name `"a.wav"`. -/
theorem C10_suffix_is_after_last_dot_witness :
    (∃ pre, "/tmp/tmpabc.wav" =
        pre ++ ("." ++ String.mk (afterLastDot ufW.name.data))) ∧
      ('.' ∉ ufW.name.data →
        ∃ pre, "/tmp/tmpabc.wav" = pre ++ ("." ++ ufW.name)) :=
  C10_suffix_is_after_last_dot envOkW ufW fs0 "/tmp/tmpabc.wav" (by decide)

end WhisperApp
